import Mathlib

set_option maxHeartbeats 1000000

/-!
Verification of the lunatic process/environment host-call surface.

The definitions below are a shallow embedding of the Rust sources
`src/api/process.rs` and `src/module.rs`.  Components of the repository whose
sources are not included (the resource table, EnvConfig, Environment and the
name registry) are modelled from the specification, and each such definition
says so in its doc comment.  Machine integers are represented as `Nat` with
explicit `% 2^w` where truncation matters; fallible host calls return
`Except String` where the `String` is the trap's source tag.
-/

namespace Lunatic

/-- A machine byte, represented as a natural number; real guest memory holds
values below 256. -/
abbrev Byte := Nat

/-- Little-endian interpretation of a byte list, as in `u128::from_le_bytes`
(`src/api/process.rs` line 680). -/
def leVal : List Byte → Nat
  | [] => 0
  | b :: bs => b + 256 * leVal bs

/-- Little-endian encoding of a value into `w` bytes, as in `to_le_bytes`. -/
def leBytes (w : Nat) (v : Nat) : List Byte :=
  (List.range w).map (fun i => v / 256 ^ i % 256)

/-- Whether a byte is a UTF-8 continuation byte (`0x80..=0xBF`). -/
def isCont (b : Byte) : Bool :=
  decide (0x80 ≤ b) && decide (b ≤ 0xBF)

/-- Strict UTF-8 validity of a byte sequence, the check performed by
`std::str::from_utf8`: rejects overlong encodings, surrogates and values
above U+10FFFF. -/
def validUTF8 : List Byte → Bool
  | [] => true
  | b :: rest =>
    if b ≤ 0x7F then validUTF8 rest
    else if decide (0xC2 ≤ b) && decide (b ≤ 0xDF) then
      match rest with
      | c1 :: r => isCont c1 && validUTF8 r
      | [] => false
    else if b = 0xE0 then
      match rest with
      | c1 :: c2 :: r =>
        decide (0xA0 ≤ c1) && decide (c1 ≤ 0xBF) && isCont c2 && validUTF8 r
      | _ => false
    else if (decide (0xE1 ≤ b) && decide (b ≤ 0xEC)) || b = 0xEE || b = 0xEF then
      match rest with
      | c1 :: c2 :: r => isCont c1 && isCont c2 && validUTF8 r
      | _ => false
    else if b = 0xED then
      match rest with
      | c1 :: c2 :: r =>
        decide (0x80 ≤ c1) && decide (c1 ≤ 0x9F) && isCont c2 && validUTF8 r
      | _ => false
    else if b = 0xF0 then
      match rest with
      | c1 :: c2 :: c3 :: r =>
        decide (0x90 ≤ c1) && decide (c1 ≤ 0xBF) && isCont c2 && isCont c3 && validUTF8 r
      | _ => false
    else if decide (0xF1 ≤ b) && decide (b ≤ 0xF3) then
      match rest with
      | c1 :: c2 :: c3 :: r => isCont c1 && isCont c2 && isCont c3 && validUTF8 r
      | _ => false
    else if b = 0xF4 then
      match rest with
      | c1 :: c2 :: c3 :: r =>
        decide (0x80 ≤ c1) && decide (c1 ≤ 0x8F) && isCont c2 && isCont c3 && validUTF8 r
      | _ => false
    else false

/-- The guest instance's linear memory. -/
structure HostMemory where
  bytes : List Byte
deriving DecidableEq

/-- Modulus of 32-bit wrap-around addition on guest pointers. -/
def U32MOD : Nat := 4294967296

/-- Slice access `memory.data().get(ptr as usize..(ptr + len) as usize)` from
`spawn_from_module`, `register`, `unregister` and `lookup`: the end bound is
the 32-bit wrapping sum `ptr + len`, and the access yields `none` (a trap at
the call sites) when the range is invalid or extends past the memory. -/
def HostMemory.sliceWrap (m : HostMemory) (ptr len : Nat) : Option (List Byte) :=
  let e := (ptr + len) % U32MOD
  if ptr ≤ e ∧ e ≤ m.bytes.length then some ((m.bytes.drop ptr).take (e - ptr)) else none

/-- Bounds-checked read `memory.read(ptr, buffer)` used by `allow_namespace`
and `add_plugin`: fails when `ptr + len` exceeds the memory size. -/
def HostMemory.read (m : HostMemory) (ptr len : Nat) : Option (List Byte) :=
  if ptr + len ≤ m.bytes.length then some ((m.bytes.drop ptr).take len) else none

/-- Bounds-checked write `memory.write(ptr, data)`: fails when
`ptr + data.length` exceeds the memory size. -/
def HostMemory.write (m : HostMemory) (ptr : Nat) (data : List Byte) : Option HostMemory :=
  if ptr + data.length ≤ m.bytes.length then
    some ⟨m.bytes.take ptr ++ data ++ m.bytes.drop (ptr + data.length)⟩
  else none

/-- WebAssembly values as produced by the parameter decoder (`wasmtime::Val`);
the payloads are the low bits of the decoded `u128`. -/
inductive Val where
  | i32 (v : Nat)
  | i64 (v : Nat)
  | v128 (v : Nat)
deriving DecidableEq

/-- Decoding of one 17-byte parameter record (`src/api/process.rs` lines
679-688): byte 0 is the type tag, bytes 1..17 are a little-endian `u128`,
truncated by the `as i32` / `as i64` casts for the narrower types. -/
def decodeRecord (chunk : List Byte) : Except String Val :=
  match chunk with
  | [] => .error "Unsupported type ID"
  | tag :: rest =>
    let value := leVal rest
    if tag = 0x7F then .ok (.i32 (value % 2 ^ 32))
    else if tag = 0x7E then .ok (.i64 (value % 2 ^ 64))
    else if tag = 0x7B then .ok (.v128 value)
    else .error "Unsupported type ID"

/-- Fuel-indexed worker for `chunksExact`; the fuel only bounds the recursion
depth and is irrelevant once it is at least the list length. -/
def chunksExactAux (n : Nat) : Nat → List Byte → List (List Byte)
  | 0, _ => []
  | fuel + 1, l =>
    if 0 < n ∧ n ≤ l.length then l.take n :: chunksExactAux n fuel (l.drop n)
    else []

/-- Rust's `slice::chunks_exact(n)`: the maximal list of consecutive `n`-byte
chunks; a remainder shorter than `n` is not yielded. -/
def chunksExact (n : Nat) (l : List Byte) : List (List Byte) :=
  chunksExactAux n l.length l

/-- The `.collect::<Result<Vec<_>>>()` over decoded records: stops at the
first decoding error. -/
def collectVals : List (List Byte) → Except String (List Val)
  | [] => .ok []
  | c :: cs =>
    match decodeRecord c with
    | .error e => .error e
    | .ok v =>
      match collectVals cs with
      | .error e => .error e
      | .ok vs => .ok (v :: vs)

/-- Decoding of the whole `params` region in `spawn_from_module` (lines
677-689): `params.chunks_exact(17).map(decode).collect::<Result<_>>()`. -/
def decodeParams (bs : List Byte) : Except String (List Val) :=
  collectVals (chunksExact 17 bs)

/-- Modelled from the spec: the Resource Table of section 4.A (the
`HashMapId` implementation is not under `src/`).  A dense map from `u64`
ids to values; `add` allocates the next id. -/
structure ResourceTable (α : Type) where
  nextId : Nat
  entries : List (Nat × α)
deriving DecidableEq

/-- Modelled from the spec: `add(v) → id` allocates a fresh id. -/
def ResourceTable.add (t : ResourceTable α) (v : α) : Nat × ResourceTable α :=
  (t.nextId, ⟨t.nextId + 1, (t.nextId, v) :: t.entries⟩)

/-- Modelled from the spec: `get(id) → v | none`. -/
def ResourceTable.get (t : ResourceTable α) (id : Nat) : Option α :=
  (t.entries.find? (fun p => decide (p.1 = id))).map Prod.snd

/-- Modelled from the spec: `remove(id) → v | none`, deleting the entry. -/
def ResourceTable.remove (t : ResourceTable α) (id : Nat) : Option (α × ResourceTable α) :=
  match t.get id with
  | some v => some (v, ⟨t.nextId, t.entries.filter (fun p => decide (p.1 ≠ id))⟩)
  | none => none

/-- Modelled from the spec: in-place update through `get_mut(id)`. -/
def ResourceTable.set (t : ResourceTable α) (id : Nat) (v : α) : ResourceTable α :=
  ⟨t.nextId, t.entries.map (fun p => if p.1 = id then (id, v) else p)⟩

/-- Well-formedness of a table: every allocated key is below `nextId`, so the
next allocation is fresh. -/
def ResourceTable.WF (t : ResourceTable α) : Bool :=
  t.entries.all (fun p => decide (p.1 < t.nextId))

/-- Modelled from the spec: `EnvConfig` of section 3 (its source is not under
`src/`): memory cap, optional fuel cap, permitted namespaces, plugin blobs.
`EnvConfig::new(max_memory, max_fuel)` starts with empty lists. -/
structure EnvConfig where
  maxMemory : Nat
  maxFuel : Option Nat
  allowedNamespaces : List (List Byte)
  plugins : List (List Byte)
deriving DecidableEq

/-- A strict semantic version, as parsed by the registry. -/
structure Version where
  major : Nat
  minor : Nat
  patch : Nat
deriving DecidableEq

/-- A process handle (`WasmProcess`): the UUID plus the (here implicit)
signal-mailbox sender. -/
structure Proc where
  id : Nat
deriving DecidableEq

/-- Modelled from the spec: an Environment owns a config snapshot and the
name registry (sections 3 and 4.E; `environment.rs` is not under `src/`).
The engine and linker are external to the embedding. -/
structure Env where
  config : EnvConfig
  registry : List (List Byte × Version × Proc)
deriving DecidableEq

/-- A compiled module: its exported function names and its environment
(`src/module.rs`, `InnerModule`; the raw data and the wasmtime artifact are
external). -/
structure ModuleM where
  exports : List (List Byte)
  env : Env
deriving DecidableEq

/-- The recoverable error produced by `Module::spawn` when the entry function
is not exported (`src/module.rs` lines 94-98). -/
inductive ErrorValue where
  | functionNotFound (function : List Byte)
deriving DecidableEq

/-- Signals, restricted to the variants the verified host calls emit. -/
inductive Signal where
  | link (tag : Option Int) (peer : Nat)
  | unLink (peer : Nat)
deriving DecidableEq

/-- The observable effects of `Module::spawn` (`src/module.rs` lines 122-136),
in program order: the parent's self-link signal, the single scheduler yield,
the enqueue into the child's signal mailbox, and the spawn of the child task
carrying the decoded arguments. -/
inductive SpawnEvent where
  | sendToParent (s : Signal)
  | yieldNow
  | enqueueChild (s : Signal)
  | spawnTask (args : List Val)
deriving DecidableEq

instance {ε α : Type} [DecidableEq ε] [DecidableEq α] : DecidableEq (Except ε α) := fun a b =>
  match a, b with
  | .error x, .error y =>
    if h : x = y then isTrue (by rw [h]) else isFalse (fun c => h (by cases c; rfl))
  | .ok x, .ok y =>
    if h : x = y then isTrue (by rw [h]) else isFalse (fun c => h (by cases c; rfl))
  | .error _, .ok _ => isFalse (fun c => Except.noConfusion c)
  | .ok _, .error _ => isFalse (fun c => Except.noConfusion c)

/-- The result of `Module::spawn`: the spawn error or the child handle, plus
the emitted event trace. -/
structure SpawnOut where
  result : Except ErrorValue Proc
  events : List SpawnEvent
deriving DecidableEq

/-- Embedding of `Module::spawn` (`src/module.rs` lines 56-138).  The fresh
UUID is passed in as `childId` (the source draws it from `Uuid::new_v4`);
instantiation against the linker is treated as succeeding (engine-level
failures are external).  If the entry function is absent the call fails
before any link handling; otherwise, when a link is requested, the parent
self-link, the single yield, the child-mailbox enqueue and the task spawn
happen in this order. -/
def moduleSpawn (m : ModuleM) (function : List Byte) (params : List Val)
    (link : Option (Option Int × Proc)) (childId : Nat) : SpawnOut :=
  if function ∈ m.exports then
    let events :=
      match link with
      | none => [SpawnEvent.spawnTask params]
      | some (tag, parent) =>
        [SpawnEvent.sendToParent (Signal.link none childId),
         SpawnEvent.yieldNow,
         SpawnEvent.enqueueChild (Signal.link tag parent.id),
         SpawnEvent.spawnTask params]
    { result := .ok ⟨childId⟩, events := events }
  else
    { result := .error (.functionNotFound function), events := [] }

/-- The per-kind resource tables of a process (`state.rs` resources). -/
structure Resources where
  configs : ResourceTable EnvConfig
  environments : ResourceTable Env
  modules : ResourceTable ModuleM
  processes : ResourceTable Proc
  errors : ResourceTable ErrorValue
deriving DecidableEq

/-- The caller-side process state visible to the host calls: own UUID, the
module it runs, its resource tables and its linear memory. -/
structure ProcState where
  id : Nat
  module : ModuleM
  resources : Resources
  memory : HostMemory
deriving DecidableEq

/-- Embedding of `create_config` (`src/api/process.rs` lines 274-278):
`max_fuel = 0` becomes `None` (unlimited), anything else `Some`. -/
def create_config (st : ProcState) (maxMemory maxFuel : Nat) : Nat × ProcState :=
  let mf : Option Nat := if maxFuel ≠ 0 then some maxFuel else none
  let config : EnvConfig :=
    { maxMemory := maxMemory, maxFuel := mf, allowedNamespaces := [], plugins := [] }
  let r := st.resources.configs.add config
  (r.1, { st with resources := { st.resources with configs := r.2 } })

/-- Embedding of `drop_config` (lines 286-294): removing an unknown id traps. -/
def drop_config (st : ProcState) (configId : Nat) : Except String ProcState :=
  match st.resources.configs.remove configId with
  | none => .error "lunatic::process::drop_config"
  | some r => .ok { st with resources := { st.resources with configs := r.2 } }

/-- Embedding of `drop_environment` (lines 420-428). -/
def drop_environment (st : ProcState) (envId : Nat) : Except String ProcState :=
  match st.resources.environments.remove envId with
  | none => .error "lunatic::process::drop_environment"
  | some r => .ok { st with resources := { st.resources with environments := r.2 } }

/-- Embedding of `drop_module` (lines 523-531). -/
def drop_module (st : ProcState) (modId : Nat) : Except String ProcState :=
  match st.resources.modules.remove modId with
  | none => .error "lunatic::process::drop_module"
  | some r => .ok { st with resources := { st.resources with modules := r.2 } }

/-- Embedding of `drop_process` (lines 724-732). -/
def drop_process (st : ProcState) (processId : Nat) : Except String ProcState :=
  match st.resources.processes.remove processId with
  | none => .error "lunatic::process::drop_process"
  | some r => .ok { st with resources := { st.resources with processes := r.2 } }

/-- Embedding of `clone_process` (lines 740-750). -/
def clone_process (st : ProcState) (processId : Nat) : Except String (Nat × ProcState) :=
  match st.resources.processes.get processId with
  | none => .error "lunatic::process::clone_process"
  | some proc =>
    let r := st.resources.processes.add proc
    .ok (r.1, { st with resources := { st.resources with processes := r.2 } })

/-- Embedding of the `id` host call (lines 795-809): traps on an unknown
process id, then writes the UUID little-endian as 16 bytes. -/
def id_host (st : ProcState) (processId ptr : Nat) : Except String ProcState :=
  match st.resources.processes.get processId with
  | none => .error "lunatic::process::id"
  | some proc =>
    match st.memory.write ptr (leBytes 16 proc.id) with
    | none => .error "lunatic::process::id"
    | some mem' => .ok { st with memory := mem' }

/-- Embedding of `allow_namespace` (lines 304-325): bounds-checked read of the
namespace string, UTF-8 validation, then append to the config's allow-list
(the append is `EnvConfig::allow_namespace`, modelled from spec section 4.C). -/
def allow_namespace (st : ProcState) (configId ptr len : Nat) : Except String ProcState :=
  match st.memory.read ptr len with
  | none => .error "lunatic::process::allow_namespace"
  | some buffer =>
    if validUTF8 buffer then
      match st.resources.configs.get configId with
      | none => .error "lunatic::process::allow_namespace"
      | some config =>
        .ok { st with resources := { st.resources with
          configs := st.resources.configs.set configId
            { config with allowedNamespaces := config.allowedNamespaces ++ [buffer] } } }
    else .error "lunatic::process::allow_namespace"

/-- Embedding of `create_environment` (lines 388-412): reads and clones the
config (the table keeps its entry), builds the environment, registers it and
writes the new id.  `Environment::new` is modelled from the spec: the new
environment snapshots the config and starts an empty registry; engine
construction is external and taken as succeeding. -/
def create_environment (st : ProcState) (configId idPtr : Nat) : Except String (Nat × ProcState) :=
  match st.resources.configs.get configId with
  | none => .error "lunatic::process::create_environment"
  | some config =>
    let env : Env := { config := config, registry := [] }
    let r := st.resources.environments.add env
    match st.memory.write idPtr (leBytes 8 r.1) with
    | none => .error "lunatic::process::create_environment"
    | some mem' =>
      .ok (0, { st with resources := { st.resources with environments := r.2 }, memory := mem' })

/-- The two signal sends performed by the `link` host call, in order. -/
inductive LinkSend where
  | toOther (target : Nat) (s : Signal)
  | toSelf (s : Signal)
deriving DecidableEq

/-- Embedding of the `link` host call (lines 826-853): tag 0 becomes `None`,
the target is resolved (trapping on an unknown id), then a `Link` signal is
sent to the target and to the caller itself. -/
def link (st : ProcState) (tag : Int) (processId : Nat) : Except String (List LinkSend) :=
  let tagOpt : Option Int := if tag = 0 then none else some tag
  match st.resources.processes.get processId with
  | none => .error "lunatic::process::link"
  | some proc =>
    .ok [LinkSend.toOther proc.id (Signal.link tagOpt st.id),
         LinkSend.toSelf (Signal.link tagOpt proc.id)]

/-- Embedding of `spawn_from_module` (lines 656-715): decode the function
name (bounds check + UTF-8), decode the params region, translate the link
argument (0 means no link, otherwise the value is the tag and the parent
handle is attached), run `Module::spawn`, then store the process or error
resource and write its id little-endian to `id_ptr`. -/
def spawn_from_module (st : ProcState) (linkArg : Int) (m : ModuleM)
    (funcStrPtr funcStrLen paramsPtr paramsLen idPtr childId : Nat) :
    Except String (Nat × ProcState × List SpawnEvent) :=
  match st.memory.sliceWrap funcStrPtr funcStrLen with
  | none => .error "lunatic::process::(inherit_)spawn"
  | some funcStr =>
    if validUTF8 funcStr then
      match st.memory.sliceWrap paramsPtr paramsLen with
      | none => .error "lunatic::process::(inherit_)spawn"
      | some paramsBytes =>
        match decodeParams paramsBytes with
        | .error e => .error e
        | .ok params =>
          let linkOpt : Option (Option Int × Proc) :=
            if linkArg = 0 then none else some (some linkArg, ⟨st.id⟩)
          let out := moduleSpawn m funcStr params linkOpt childId
          match out.result with
          | .ok child =>
            let r := st.resources.processes.add child
            match st.memory.write idPtr (leBytes 8 r.1) with
            | none => .error "lunatic::process::(inherit_)spawn"
            | some mem' =>
              let st' : ProcState :=
                { st with resources := { st.resources with processes := r.2 }, memory := mem' }
              .ok (0, st', out.events)
          | .error err =>
            let r := st.resources.errors.add err
            match st.memory.write idPtr (leBytes 8 r.1) with
            | none => .error "lunatic::process::(inherit_)spawn"
            | some mem' =>
              let st' : ProcState :=
                { st with resources := { st.resources with errors := r.2 }, memory := mem' }
              .ok (1, st', out.events)
    else .error "lunatic::process::(inherit_)spawn"

/-- Strict lexicographic order on versions. -/
def Version.ltb (a b : Version) : Bool :=
  decide (a.major < b.major ∨ (a.major = b.major ∧
    (a.minor < b.minor ∨ (a.minor = b.minor ∧ a.patch < b.patch))))

/-- Reflexive lexicographic order on versions. -/
def Version.leb (a b : Version) : Bool :=
  Version.ltb a b || decide (a = b)

/-- A semver range query after parsing by the external semver crate: either
invalid, or a predicate on versions. -/
inductive SemverQuery where
  | invalid
  | range (sat : Version → Bool)

/-- The entry with the highest version among a list of registry entries. -/
def bestEntry : List (List Byte × Version × Proc) → Option (List Byte × Version × Proc)
  | [] => none
  | e :: rest =>
    match bestEntry rest with
    | none => some e
    | some b => some (if Version.ltb e.2.1 b.2.1 then b else e)

/-- Modelled from the spec: `registry.get(name, query)` of section 4.G (the
registry source is not under `src/`): an invalid query fails recoverably;
otherwise the entry under `name` with the highest version satisfying the
range is returned, or `none` when no entry matches. -/
def registryGet (reg : List (List Byte × Version × Proc)) (name : List Byte)
    (q : SemverQuery) : Except Unit (Option Proc) :=
  match q with
  | .invalid => .error ()
  | .range sat =>
    .ok ((bestEntry (reg.filter (fun e => decide (e.1 = name) && sat e.2.1))).map
      (fun e => e.2.2))

/-- Embedding of `lookup` (lines 1019-1053): decode the name and query
strings, query the caller's environment registry, and map the outcome to
status 1 (bad semver, nothing written), 2 (no match, nothing written) or
0 (process added to the caller's table and its id written little-endian).
The semver parse of the query bytes is the external semver crate, passed in
as `parse`. -/
def lookup (parse : List Byte → SemverQuery) (st : ProcState)
    (namePtr nameLen queryPtr queryLen idPtr : Nat) : Except String (Nat × ProcState) :=
  match st.memory.sliceWrap namePtr nameLen with
  | none => .error "lunatic::process::lookup"
  | some nameBytes =>
    if validUTF8 nameBytes then
      match st.memory.sliceWrap queryPtr queryLen with
      | none => .error "lunatic::process::lookup"
      | some queryBytes =>
        if validUTF8 queryBytes then
          match registryGet st.module.env.registry nameBytes (parse queryBytes) with
          | .error _ => .ok (1, st)
          | .ok none => .ok (2, st)
          | .ok (some proc) =>
            let r := st.resources.processes.add proc
            match st.memory.write idPtr (leBytes 8 r.1) with
            | none => .error "lunatic::process::lookup"
            | some mem' =>
              let st' : ProcState :=
                { st with resources := { st.resources with processes := r.2 }, memory := mem' }
              .ok (0, st')
        else .error "lunatic::process::lookup"
    else .error "lunatic::process::lookup"

/-- Modelled from the spec: `registry.insert` of section 4.G (the registry
source is not under `src/`): an upsert keyed by (name, version) — any entry
with the same name and version is replaced. -/
def registryInsert (reg : List (List Byte × Version × Proc)) (name : List Byte) (v : Version)
    (proc : Proc) : List (List Byte × Version × Proc) :=
  reg.filter (fun e => !(decide (e.1 = name) && decide (e.2.1 = v))) ++ [(name, v, proc)]

/-- Embedding of `register` (`src/api/process.rs` lines 905-944): decode the
name and version strings (bounds check + UTF-8 each), resolve the process and
the environment (trapping on unknown ids), then insert into the environment's
registry; an invalid version string returns 1, success 0.  The strict-semver
parse of the version bytes is the external semver crate, passed in as
`parseV`; the upsert itself is `registryInsert`, modelled from spec 4.G. -/
def register_proc (parseV : List Byte → Option Version) (st : ProcState)
    (namePtr nameLen versionPtr versionLen : Nat) (envId processId : Nat) :
    Except String (Nat × ProcState) :=
  match st.memory.sliceWrap namePtr nameLen with
  | none => .error "lunatic::process::register"
  | some nameBytes =>
    if validUTF8 nameBytes then
      match st.memory.sliceWrap versionPtr versionLen with
      | none => .error "lunatic::process::register"
      | some versionBytes =>
        if validUTF8 versionBytes then
          match st.resources.processes.get processId with
          | none => .error "lunatic::process::register"
          | some proc =>
            match st.resources.environments.get envId with
            | none => .error "lunatic::process::register"
            | some env =>
              match parseV versionBytes with
              | none => .ok (1, st)
              | some v =>
                let env' : Env :=
                  { env with registry := registryInsert env.registry nameBytes v proc }
                .ok (0, { st with resources := { st.resources with
                    environments := st.resources.environments.set envId env' } })
        else .error "lunatic::process::register"
    else .error "lunatic::process::register"

/-- Embedding of `unregister` (`src/api/process.rs` lines 965-998): decode the
name and version strings (bounds check + UTF-8 each), resolve the environment
(trapping on an unknown id), then remove from its registry; an invalid
version string returns 1, a missing entry 2, a removed entry 0.  The
strict-semver parse is passed in as `parseV`; the keyed removal is modelled
from spec 4.G. -/
def unregister (parseV : List Byte → Option Version) (st : ProcState)
    (namePtr nameLen versionPtr versionLen : Nat) (envId : Nat) :
    Except String (Nat × ProcState) :=
  match st.memory.sliceWrap namePtr nameLen with
  | none => .error "lunatic::process::unregister"
  | some nameBytes =>
    if validUTF8 nameBytes then
      match st.memory.sliceWrap versionPtr versionLen with
      | none => .error "lunatic::process::unregister"
      | some versionBytes =>
        if validUTF8 versionBytes then
          match st.resources.environments.get envId with
          | none => .error "lunatic::process::unregister"
          | some env =>
            match parseV versionBytes with
            | none => .ok (1, st)
            | some v =>
              if (env.registry.filter
                  (fun e => decide (e.1 = nameBytes) && decide (e.2.1 = v))).isEmpty then
                .ok (2, st)
              else
                let remaining := env.registry.filter
                  (fun e => !(decide (e.1 = nameBytes) && decide (e.2.1 = v)))
                let env' : Env := { env with registry := remaining }
                .ok (0, { st with resources := { st.resources with
                    environments := st.resources.environments.set envId env' } })
        else .error "lunatic::process::unregister"
    else .error "lunatic::process::unregister"

/-- Modelled from the spec: one unit of compute is about 10,000 instructions
(the constant lives in `environment.rs`, which is not under `src/`; the code
comment at `src/api/process.rs` line 269 agrees). -/
def UNIT_OF_COMPUTE_IN_INSTRUCTIONS : Nat := 10000

/-- The largest u64 value. -/
def u64MAX : Nat := 18446744073709551615

/-- The store's fuel configuration installed by `Module::spawn`
(`src/module.rs` lines 78-87): the out-of-fuel trap is always enabled, and
`out_of_fuel_async_yield` is given the configured fuel (or `u64::MAX` when
unlimited) and one unit of compute per injection. -/
structure StoreFuel where
  outOfFuelTrap : Bool
  injectionCount : Nat
  fuelPerInjection : Nat
deriving DecidableEq

/-- Fuel installation from a config, per `Module::spawn` lines 78-87. -/
def configureFuel (cfg : EnvConfig) : StoreFuel :=
  { outOfFuelTrap := true
    injectionCount :=
      match cfg.maxFuel with
      | some maxFuel => maxFuel
      | none => u64MAX
    fuelPerInjection := UNIT_OF_COMPUTE_IN_INSTRUCTIONS }

/-- The status component of a spawn result, when it did not trap. -/
def spawnStatus (r : Except String (Nat × ProcState × List SpawnEvent)) : Option Nat :=
  match r with
  | .ok x => some x.1
  | .error _ => none

theorem leBytes_length (w v : Nat) : (leBytes w v).length = w := by
  simp [leBytes]

theorem HostMemory.write_of_le (m : HostMemory) (ptr : Nat) (data : List Byte)
    (h : ptr + data.length ≤ m.bytes.length) :
    m.write ptr data = some ⟨m.bytes.take ptr ++ data ++ m.bytes.drop (ptr + data.length)⟩ := by
  simp [HostMemory.write, h]

theorem chunksExactAux_small (n f : Nat) (l : List Byte) (h : l.length < n) :
    chunksExactAux n f l = [] := by
  cases f with
  | zero => rfl
  | succ f =>
    have hc : ¬ (0 < n ∧ n ≤ l.length) := by omega
    simp only [chunksExactAux]
    rw [if_neg hc]

theorem chunksExactAux_congr (n : Nat) :
    ∀ (f1 f2 : Nat) (l : List Byte), l.length ≤ f1 → l.length ≤ f2 →
      chunksExactAux n f1 l = chunksExactAux n f2 l := by
  intro f1
  induction f1 with
  | zero =>
    intro f2 l h1 _
    have hl : l = [] := List.eq_nil_of_length_eq_zero (Nat.le_zero.mp h1)
    subst hl
    cases f2 with
    | zero => rfl
    | succ f2 =>
      have hc : ¬ (0 < n ∧ n ≤ ([] : List Byte).length) := by
        simp only [List.length_nil]
        omega
      simp only [chunksExactAux]
      rw [if_neg hc]
  | succ f1 ih =>
    intro f2 l h1 h2
    by_cases hc : 0 < n ∧ n ≤ l.length
    · cases f2 with
      | zero => omega
      | succ f2 =>
        simp only [chunksExactAux]
        rw [if_pos hc, if_pos hc]
        have hd : (l.drop n).length ≤ f1 := by simp [List.length_drop]; omega
        have hd2 : (l.drop n).length ≤ f2 := by simp [List.length_drop]; omega
        rw [ih f2 (l.drop n) hd hd2]
    · cases f2 with
      | zero =>
        have hl : l = [] := List.eq_nil_of_length_eq_zero (Nat.le_zero.mp h2)
        subst hl
        simp only [chunksExactAux]
        rw [if_neg hc]
      | succ f2 =>
        simp only [chunksExactAux]
        rw [if_neg hc, if_neg hc]

theorem chunksExact_small (n : Nat) (l : List Byte) (h : l.length < n) :
    chunksExact n l = [] :=
  chunksExactAux_small n l.length l h

theorem chunksExact_cons (n : Nat) (hn : 0 < n) (r l : List Byte) (hr : r.length = n) :
    chunksExact n (r ++ l) = r :: chunksExact n l := by
  unfold chunksExact
  have hlen : (r ++ l).length = n + l.length := by simp [hr]
  obtain ⟨k, hk⟩ : ∃ k, (r ++ l).length = k + 1 := ⟨(r ++ l).length - 1, by omega⟩
  rw [hk]
  simp only [chunksExactAux]
  have hc : 0 < n ∧ n ≤ (r ++ l).length := ⟨hn, by omega⟩
  rw [if_pos hc, List.take_left' hr, List.drop_left' hr]
  congr 1
  exact chunksExactAux_congr n k l.length l (by omega) le_rfl

theorem decodeParams_flatten :
    ∀ (rs : List (List Byte)) (tail : List Byte),
      (∀ r ∈ rs, r.length = 17) → tail.length < 17 →
      decodeParams (rs.flatten ++ tail) = collectVals rs := by
  intro rs
  induction rs with
  | nil =>
    intro tail _ ht
    unfold decodeParams
    rw [List.flatten_nil, List.nil_append, chunksExact_small 17 tail ht]
  | cons r rs ih =>
    intro tail hrs ht
    have hr : r.length = 17 := hrs r (by simp)
    have hrs' : ∀ x ∈ rs, x.length = 17 := fun x hx => hrs x (by simp [hx])
    have hsplit : (r :: rs).flatten ++ tail = r ++ (rs.flatten ++ tail) := by
      simp [List.flatten_cons, List.append_assoc]
    unfold decodeParams
    rw [hsplit, chunksExact_cons 17 (by omega) r (rs.flatten ++ tail) hr]
    have hIH : collectVals (chunksExact 17 (rs.flatten ++ tail)) = collectVals rs := ih tail hrs' ht
    show collectVals (r :: chunksExact 17 (rs.flatten ++ tail)) = collectVals (r :: rs)
    simp only [collectVals]
    rw [hIH]

theorem collectVals_error_of_mem :
    ∀ (rs : List (List Byte)) (r : List Byte) (e : String),
      r ∈ rs → decodeRecord r = .error e → ∃ e', collectVals rs = .error e' := by
  intro rs
  induction rs with
  | nil => intro r e h; exact absurd h (List.not_mem_nil r)
  | cons c cs ih =>
    intro r e hmem hdec
    rcases List.mem_cons.mp hmem with h | h
    · subst h
      exact ⟨e, by simp [collectVals, hdec]⟩
    · cases hc : decodeRecord c with
      | error e2 => exact ⟨e2, by simp [collectVals, hc]⟩
      | ok v =>
        obtain ⟨e', he'⟩ := ih r e h hdec
        exact ⟨e', by simp [collectVals, hc, he']⟩

theorem find?_filter_ne_none {α : Type} (l : List (Nat × α)) (id : Nat) :
    (l.filter (fun p => decide (p.1 ≠ id))).find? (fun p => decide (p.1 = id)) = none := by
  rw [List.find?_eq_none]
  intro x hx
  have hm := (List.mem_filter.mp hx).2
  simp at hm ⊢
  exact hm

theorem get_nextId_of_WF {α : Type} (t : ResourceTable α) (h : t.WF = true) :
    t.get t.nextId = none := by
  unfold ResourceTable.WF at h
  unfold ResourceTable.get
  have hf : t.entries.find? (fun p => decide (p.1 = t.nextId)) = none := by
    rw [List.find?_eq_none]
    intro x hx
    have hlt := List.all_eq_true.mp h x hx
    simp at hlt ⊢
    omega
  rw [hf]
  rfl

theorem get_add_self {α : Type} (t : ResourceTable α) (v : α) :
    (t.add v).2.get (t.add v).1 = some v := by
  simp [ResourceTable.add, ResourceTable.get, List.find?_cons]

theorem remove_of_get {α : Type} (t : ResourceTable α) (id : Nat) (v : α) (h : t.get id = some v) :
    t.remove id = some (v, ⟨t.nextId, t.entries.filter (fun p => decide (p.1 ≠ id))⟩) := by
  unfold ResourceTable.remove
  rw [h]

theorem remove_remove {α : Type} (t : ResourceTable α) (id : Nat) (v : α) (t' : ResourceTable α)
    (h : t.remove id = some (v, t')) : t'.get id = none := by
  unfold ResourceTable.remove at h
  cases hg : t.get id with
  | none => rw [hg] at h; cases h
  | some w =>
    rw [hg] at h
    have hpair := Option.some.inj h
    injection hpair with h1 h2
    subst h2
    unfold ResourceTable.get
    dsimp only
    rw [find?_filter_ne_none]
    rfl

theorem Version.leb_refl (a : Version) : Version.leb a a = true := by
  simp [Version.leb]

theorem Version.leb_of_ltb (a b : Version) (h : Version.ltb a b = true) :
    Version.leb a b = true := by
  simp [Version.leb, h]

theorem Version.leb_of_not_ltb (a b : Version) (h : Version.ltb a b = false) :
    Version.leb b a = true := by
  cases a with
  | mk a1 a2 a3 =>
    cases b with
    | mk b1 b2 b3 =>
      simp [Version.ltb, Version.leb, Version.mk.injEq] at h ⊢
      omega

theorem Version.leb_trans (a b c : Version) (h1 : Version.leb a b = true)
    (h2 : Version.leb b c = true) : Version.leb a c = true := by
  cases a with
  | mk a1 a2 a3 =>
    cases b with
    | mk b1 b2 b3 =>
      cases c with
      | mk c1 c2 c3 =>
        simp [Version.ltb, Version.leb, Version.mk.injEq] at h1 h2 ⊢
        omega

theorem bestEntry_mem :
    ∀ (l : List (List Byte × Version × Proc)) (e : List Byte × Version × Proc),
      bestEntry l = some e → e ∈ l := by
  intro l
  induction l with
  | nil => intro e h; cases h
  | cons a rest ih =>
    intro e h
    unfold bestEntry at h
    cases hb : bestEntry rest with
    | none =>
      rw [hb] at h
      have he := Option.some.inj h
      simp [← he]
    | some b =>
      rw [hb] at h
      have he := Option.some.inj h
      by_cases hlt : Version.ltb a.2.1 b.2.1 = true
      · rw [if_pos hlt] at he
        subst he
        exact List.mem_cons_of_mem a (ih b hb)
      · rw [if_neg hlt] at he
        subst he
        exact List.mem_cons_self a rest

theorem bestEntry_max :
    ∀ (l : List (List Byte × Version × Proc)) (e : List Byte × Version × Proc),
      bestEntry l = some e → ∀ x ∈ l, Version.leb x.2.1 e.2.1 = true := by
  intro l
  induction l with
  | nil => intro e h; cases h
  | cons a rest ih =>
    intro e h x hx
    unfold bestEntry at h
    cases hb : bestEntry rest with
    | none =>
      rw [hb] at h
      have he := Option.some.inj h
      subst he
      rcases List.mem_cons.mp hx with h1 | h1
      · subst h1; exact Version.leb_refl _
      · cases rest with
        | nil => exact absurd h1 (List.not_mem_nil x)
        | cons y ys =>
          exfalso
          unfold bestEntry at hb
          cases hby : bestEntry ys with
          | none => rw [hby] at hb; cases hb
          | some z => rw [hby] at hb; cases hb
    | some b =>
      rw [hb] at h
      have he := Option.some.inj h
      rcases List.mem_cons.mp hx with h1 | h1
      · subst h1
        by_cases hlt : Version.ltb x.2.1 b.2.1 = true
        · rw [if_pos hlt] at he
          subst he
          exact Version.leb_of_ltb _ _ hlt
        · rw [if_neg hlt] at he
          subst he
          exact Version.leb_refl _
      · have hxb := ih b hb x h1
        by_cases hlt : Version.ltb a.2.1 b.2.1 = true
        · rw [if_pos hlt] at he
          subst he
          exact hxb
        · rw [if_neg hlt] at he
          subst he
          exact Version.leb_trans _ _ _ hxb
            (Version.leb_of_not_ltb a.2.1 b.2.1 (Bool.eq_false_iff.mpr hlt))

theorem allow_namespace_environments (st : ProcState) (cid p l : Nat) (st₂ : ProcState)
    (h : allow_namespace st cid p l = .ok st₂) :
    st₂.resources.environments = st.resources.environments := by
  unfold allow_namespace at h
  split at h
  · cases h
  · split at h
    · split at h
      · cases h
      · have he := Except.ok.inj h
        rw [← he]
    · cases h

/-- The memory after a successful bounds-checked write. -/
def writtenMem (m : HostMemory) (ptr : Nat) (data : List Byte) : HostMemory :=
  ⟨m.bytes.take ptr ++ data ++ m.bytes.drop (ptr + data.length)⟩

/-- The caller state after a successful spawn: child handle stored, id
written. -/
def spawnOkState (st : ProcState) (child : Proc) (mem' : HostMemory) : ProcState :=
  { st with
    resources := { st.resources with processes := (st.resources.processes.add child).2 },
    memory := mem' }

/-- The caller state after a recoverable spawn error: error stored, id
written. -/
def spawnErrState (st : ProcState) (err : ErrorValue) (mem' : HostMemory) : ProcState :=
  { st with
    resources := { st.resources with errors := (st.resources.errors.add err).2 },
    memory := mem' }

/-- A process state with all resource tables empty. -/
def emptyResources : Resources := ⟨⟨0, []⟩, ⟨0, []⟩, ⟨0, []⟩, ⟨0, []⟩, ⟨0, []⟩⟩

/-- A sample environment with a default config and an empty registry. -/
def sampleEnv : Env :=
  { config := { maxMemory := 0, maxFuel := none, allowedNamespaces := [], plugins := [] }
    registry := [] }

/-- A sample module exporting the single function name "f" (byte 0x66). -/
def sampleModule : ModuleM := { exports := [[0x66]], env := sampleEnv }

/-- Memory for the C1 witness: "f" at 0, then a 17-byte record with the
invalid tag 0, then 8 bytes for the result id. -/
def memC1 : HostMemory := ⟨0x66 :: List.replicate 25 0⟩

/-- Caller state for the C1 witness. -/
def stC1 : ProcState :=
  { id := 11, module := sampleModule, resources := emptyResources, memory := memC1 }

/-- Claim C1: for spawn and inherit_spawn, the params region is decoded as
consecutive 17-byte records: byte 0 is the type tag (0x7F yields an i32,
0x7E an i64, 0x7B a v128), bytes 1..17 are read as a little-endian u128 and
truncated to the target width, the decoded values are collected in record
order, and a record whose tag is none of 0x7F/0x7E/0x7B makes the decode
fail, upon which the spawn call traps. -/
theorem spawn_params_record_decoding
    (rs : List (List Byte)) (hrs : ∀ r ∈ rs, r.length = 17)
    (tag : Byte) (bs : List Byte) (hbs : bs.length = 16)
    (st : ProcState) (linkArg : Int) (m : ModuleM)
    (fp fl pp pl ip cid : Nat) (fb pb : List Byte) (e : String)
    (hf : st.memory.sliceWrap fp fl = some fb)
    (hv : validUTF8 fb = true)
    (hp : st.memory.sliceWrap pp pl = some pb)
    (he : decodeParams pb = Except.error e) :
    decodeParams rs.flatten = collectVals rs
    ∧ (tag = 0x7F → decodeRecord (tag :: bs) = Except.ok (Val.i32 (leVal bs % 2 ^ 32)))
    ∧ (tag = 0x7E → decodeRecord (tag :: bs) = Except.ok (Val.i64 (leVal bs % 2 ^ 64)))
    ∧ (tag = 0x7B → decodeRecord (tag :: bs) = Except.ok (Val.v128 (leVal bs)))
    ∧ (tag ≠ 0x7F → tag ≠ 0x7E → tag ≠ 0x7B →
        decodeRecord (tag :: bs) = Except.error "Unsupported type ID")
    ∧ (∀ r t rest, r ∈ rs → r = t :: rest → t ≠ 0x7F → t ≠ 0x7E → t ≠ 0x7B →
        ∃ e', decodeParams rs.flatten = Except.error e')
    ∧ (∃ t', spawn_from_module st linkArg m fp fl pp pl ip cid = Except.error t') := by
  have hflat : decodeParams rs.flatten = collectVals rs := by
    simpa using decodeParams_flatten rs [] hrs (by simp)
  refine ⟨hflat, ?_, ?_, ?_, ?_, ?_, ?_⟩
  · intro h; subst h; rfl
  · intro h; subst h; rfl
  · intro h; subst h; rfl
  · intro h1 h2 h3
    simp [decodeRecord, h1, h2, h3]
  · intro r t rest hmem hcons ht1 ht2 ht3
    have hdec : decodeRecord r = Except.error "Unsupported type ID" := by
      subst hcons
      simp [decodeRecord, ht1, ht2, ht3]
    obtain ⟨e', he'⟩ := collectVals_error_of_mem rs r _ hmem hdec
    exact ⟨e', by rw [hflat]; exact he'⟩
  · exact ⟨e, by simp [spawn_from_module, hf, hv, hp, he]⟩

/-- Witness for C1 at concrete inputs: a params region that is a single
17-byte record with tag 0 makes the concrete spawn call trap. -/
theorem spawn_params_record_decoding_witness :
    ∃ t', spawn_from_module stC1 0 sampleModule 0 1 1 17 18 5 = Except.error t' :=
  (spawn_params_record_decoding [0x7E :: List.replicate 16 0] (by decide)
    0x7F (List.replicate 16 0) (by decide)
    stC1 0 sampleModule 0 1 1 17 18 5 [0x66] (List.replicate 17 0) "Unsupported type ID"
    (by decide) (by decide) (by decide) (by decide)).2.2.2.2.2.2

/-- Memory for the C2 counterexample: "f" at 0, an 18-byte params region (one
whole record with tag 0x7F and value 1, plus one stray byte 0xAB), then 8
bytes for the result id. -/
def memC2 : HostMemory := ⟨[0x66, 0x7F, 1] ++ List.replicate 15 0 ++ [0xAB] ++ List.replicate 8 0⟩

/-- Caller state for the C2 counterexample. -/
def stC2 : ProcState :=
  { id := 12, module := sampleModule, resources := emptyResources, memory := memC2 }

/-- Claim C2 counterexample: a spawn whose params region is 18 bytes long (not
a multiple of 17) does NOT trap: `chunks_exact(17)` silently drops the 1-byte
remainder, the single whole record decodes, and the call returns status 0. -/
theorem spawn_params_len_18_no_trap :
    spawnStatus (spawn_from_module stC2 0 sampleModule 0 1 1 18 19 42) = some 0
    ∧ decodeParams ([0x7F, 1] ++ List.replicate 15 0 ++ [0xAB]) = Except.ok [Val.i32 1] := by
  exact ⟨rfl, rfl⟩

/-- Claim C2 (amended): a params region whose length is not a multiple of 17
does not trap on that account; the trailing partial record (fewer than 17
bytes) is ignored by `chunks_exact`, and the whole records decode exactly as
they would without the tail. -/
theorem spawn_params_trailing_tail_ignored
    (rs : List (List Byte)) (tail : List Byte)
    (hrs : ∀ r ∈ rs, r.length = 17) (ht : tail.length < 17) :
    decodeParams (rs.flatten ++ tail) = decodeParams rs.flatten := by
  rw [decodeParams_flatten rs tail hrs ht]
  simpa using (decodeParams_flatten rs [] hrs (by simp)).symm

/-- Witness for the amended C2 at concrete inputs: one whole record plus a
single stray byte decodes like the record alone. -/
theorem spawn_params_trailing_tail_ignored_witness :
    decodeParams ([0x7F :: List.replicate 16 0].flatten ++ [0xAB]) =
      decodeParams [0x7F :: List.replicate 16 0].flatten :=
  spawn_params_trailing_tail_ignored [0x7F :: List.replicate 16 0] [0xAB]
    (by decide) (by decide)

/-- Caller state for the C3 counterexample: the caller (UUID 100) holds a
handle with resource id 5 to a process with UUID 7. -/
def stC3 : ProcState :=
  { id := 100, module := sampleModule
    resources := { emptyResources with processes := ⟨6, [(5, ⟨7⟩)]⟩ }
    memory := memC2 }

/-- Claim C3 counterexample: the `link` host call with tag = 0 does NOT mean
"no link": it still sends a Link signal (with tag None) to the target process
and to the caller itself, so a link is established. -/
theorem link_zero_tag_still_sends_link_signals :
    link stC3 0 5 =
      Except.ok [LinkSend.toOther 7 (Signal.link none 100),
                 LinkSend.toSelf (Signal.link none 7)]
    ∧ ([LinkSend.toOther 7 (Signal.link none 100),
        LinkSend.toSelf (Signal.link none 7)] : List LinkSend) ≠ [] := by
  refine ⟨rfl, ?_⟩
  simp

/-- Claim C3 (amended): at spawn, link = 0 means no link (no Link signal is
emitted at all) and a non-zero link value is carried as Some tag on the
child's Link signal; in the `link` host call, tag = 0 merely makes the link
tag None while Link signals are still sent to both endpoints, and a non-zero
tag is carried as Some tag on both signals. -/
theorem link_tag_convention
    (st : ProcState) (m : ModuleM) (fp fl pp pl ip cid : Nat)
    (fb pb : List Byte) (params : List Val)
    (hf : st.memory.sliceWrap fp fl = some fb)
    (hv : validUTF8 fb = true)
    (hp : st.memory.sliceWrap pp pl = some pb)
    (hd : decodeParams pb = Except.ok params)
    (hip : ip + 8 ≤ st.memory.bytes.length)
    (tag : Int) (htag : tag ≠ 0)
    (pid : Nat) (proc : Proc) (hpid : st.resources.processes.get pid = some proc) :
    (∃ r st', spawn_from_module st 0 m fp fl pp pl ip cid =
        Except.ok (r, st', (moduleSpawn m fb params none cid).events))
    ∧ (moduleSpawn m fb params none cid).events =
        (if fb ∈ m.exports then [SpawnEvent.spawnTask params] else [])
    ∧ (fb ∈ m.exports →
        ∃ st', spawn_from_module st tag m fp fl pp pl ip cid =
          Except.ok (0, st',
            [SpawnEvent.sendToParent (Signal.link none cid),
             SpawnEvent.yieldNow,
             SpawnEvent.enqueueChild (Signal.link (some tag) st.id),
             SpawnEvent.spawnTask params]))
    ∧ link st tag pid =
        Except.ok [LinkSend.toOther proc.id (Signal.link (some tag) st.id),
                   LinkSend.toSelf (Signal.link (some tag) proc.id)]
    ∧ link st 0 pid =
        Except.ok [LinkSend.toOther proc.id (Signal.link none st.id),
                   LinkSend.toSelf (Signal.link none proc.id)] := by
  refine ⟨?_, ?_, ?_, ?_, ?_⟩
  · by_cases hmem : fb ∈ m.exports
    · have hw := HostMemory.write_of_le st.memory ip
        (leBytes 8 st.resources.processes.nextId) (by rw [leBytes_length]; exact hip)
      refine ⟨0, spawnOkState st ⟨cid⟩
        (writtenMem st.memory ip (leBytes 8 st.resources.processes.nextId)), ?_⟩
      simp [spawn_from_module, hf, hv, hp, hd, moduleSpawn, hmem,
        ResourceTable.add, hw, spawnOkState, writtenMem]
    · have hw := HostMemory.write_of_le st.memory ip
        (leBytes 8 st.resources.errors.nextId) (by rw [leBytes_length]; exact hip)
      refine ⟨1, spawnErrState st (ErrorValue.functionNotFound fb)
        (writtenMem st.memory ip (leBytes 8 st.resources.errors.nextId)), ?_⟩
      simp [spawn_from_module, hf, hv, hp, hd, moduleSpawn, hmem,
        ResourceTable.add, hw, spawnErrState, writtenMem]
  · by_cases hmem : fb ∈ m.exports
    · simp [moduleSpawn, hmem]
    · simp [moduleSpawn, hmem]
  · intro hmem
    have hw := HostMemory.write_of_le st.memory ip
      (leBytes 8 st.resources.processes.nextId) (by rw [leBytes_length]; exact hip)
    refine ⟨spawnOkState st ⟨cid⟩
      (writtenMem st.memory ip (leBytes 8 st.resources.processes.nextId)), ?_⟩
    simp [spawn_from_module, hf, hv, hp, hd, moduleSpawn, hmem, htag,
      ResourceTable.add, hw, spawnOkState, writtenMem]
  · simp [link, htag, hpid]
  · simp [link, hpid]

/-- Witness for the amended C3 at concrete inputs: the two link host-call
clauses evaluated on the concrete state with a non-zero and a zero tag. -/
theorem link_tag_convention_witness :
    link stC3 9 5 =
      Except.ok [LinkSend.toOther 7 (Signal.link (some 9) 100),
                 LinkSend.toSelf (Signal.link (some 9) 7)] :=
  (link_tag_convention stC3 sampleModule 0 1 1 18 19 42 [0x66]
    ([0x7F, 1] ++ List.replicate 15 0 ++ [0xAB]) [Val.i32 1]
    (by decide) (by decide) (by decide) (by decide) (by decide)
    9 (by decide) 5 ⟨7⟩ (by decide)).2.2.2.1

/-- Predicate picking out the yield event of a spawn trace. -/
def isYield : SpawnEvent → Bool
  | .yieldNow => true
  | _ => false

/-- Claim C4: when spawn is called with a link, the trace of Module::spawn
is exactly: Link (tag None, child handle) sent to the parent's signal
mailbox, then a single scheduler yield, then Link (the tag, parent handle)
enqueued into the child's signal mailbox, and only then the spawn of the
child's task (which is what first runs the child's Wasm); the trace contains
exactly one yield. -/
theorem spawn_link_establishment_order
    (m : ModuleM) (f : List Byte) (params : List Val) (tag : Option Int) (parent : Proc)
    (cid : Nat) (hf : f ∈ m.exports) :
    (moduleSpawn m f params (some (tag, parent)) cid).events =
      [SpawnEvent.sendToParent (Signal.link none cid),
       SpawnEvent.yieldNow,
       SpawnEvent.enqueueChild (Signal.link tag parent.id),
       SpawnEvent.spawnTask params]
    ∧ ((moduleSpawn m f params (some (tag, parent)) cid).events.filter isYield).length = 1 := by
  constructor
  · simp [moduleSpawn, hf]
  · simp [moduleSpawn, hf, isYield]

/-- Witness for C4 at concrete inputs. -/
theorem spawn_link_establishment_order_witness :
    (moduleSpawn sampleModule [0x66] [] (some (some 7, ⟨9⟩)) 3).events =
      [SpawnEvent.sendToParent (Signal.link none 3),
       SpawnEvent.yieldNow,
       SpawnEvent.enqueueChild (Signal.link (some 7) 9),
       SpawnEvent.spawnTask []] :=
  (spawn_link_establishment_order sampleModule [0x66] [] (some 7) ⟨9⟩ 3 (by decide)).1

/-- Memory for the C5 witness: the unexported name "g" at 0, then 8 bytes for
the result id. -/
def memC5 : HostMemory := ⟨0x67 :: List.replicate 8 0⟩

/-- Caller state for the C5 witness. -/
def stC5 : ProcState :=
  { id := 13, module := sampleModule, resources := emptyResources, memory := memC5 }

/-- Claim C5: for every spawn/inherit_spawn naming an entry function the
module does not export, the call does not trap: it returns status 1 and
writes a freshly allocated error-resource id (fresh: not present in the
table before the call) to the guest pointer; on success it returns 0 and
writes the new process's resource id instead. -/
theorem spawn_missing_function_is_recoverable
    (st : ProcState) (linkArg : Int) (m : ModuleM)
    (fp fl pp pl ip cid : Nat) (fb pb : List Byte) (params : List Val)
    (hf : st.memory.sliceWrap fp fl = some fb)
    (hv : validUTF8 fb = true)
    (hp : st.memory.sliceWrap pp pl = some pb)
    (hd : decodeParams pb = Except.ok params)
    (hip : ip + 8 ≤ st.memory.bytes.length)
    (hwf : st.resources.errors.WF = true) :
    (fb ∉ m.exports →
      st.resources.errors.get st.resources.errors.nextId = none ∧
      ∃ mem', st.memory.write ip (leBytes 8 st.resources.errors.nextId) = some mem' ∧
        spawn_from_module st linkArg m fp fl pp pl ip cid =
          Except.ok (1, spawnErrState st (ErrorValue.functionNotFound fb) mem', []))
    ∧ (fb ∈ m.exports →
      ∃ mem', st.memory.write ip (leBytes 8 st.resources.processes.nextId) = some mem' ∧
        ∃ evs, spawn_from_module st linkArg m fp fl pp pl ip cid =
          Except.ok (0, spawnOkState st ⟨cid⟩ mem', evs)) := by
  constructor
  · intro hnf
    refine ⟨get_nextId_of_WF _ hwf, ?_⟩
    have hw := HostMemory.write_of_le st.memory ip
      (leBytes 8 st.resources.errors.nextId) (by rw [leBytes_length]; exact hip)
    refine ⟨writtenMem st.memory ip (leBytes 8 st.resources.errors.nextId), ?_, ?_⟩
    · simpa [writtenMem] using hw
    · simp [spawn_from_module, hf, hv, hp, hd, moduleSpawn, hnf,
        ResourceTable.add, hw, writtenMem, spawnErrState]
  · intro hmem
    have hw := HostMemory.write_of_le st.memory ip
      (leBytes 8 st.resources.processes.nextId) (by rw [leBytes_length]; exact hip)
    refine ⟨writtenMem st.memory ip (leBytes 8 st.resources.processes.nextId), ?_, ?_⟩
    · simpa [writtenMem] using hw
    · refine ⟨(moduleSpawn m fb params
        (if linkArg = 0 then none else some (some linkArg, ⟨st.id⟩)) cid).events, ?_⟩
      simp [spawn_from_module, hf, hv, hp, hd, ResourceTable.add, hw,
        writtenMem, spawnOkState, moduleSpawn, hmem]

/-- Witness for C5 at concrete inputs: spawning the unexported function "g"
returns status 1 with the fresh error id 0, and does not trap. -/
theorem spawn_missing_function_is_recoverable_witness :
    stC5.resources.errors.get stC5.resources.errors.nextId = none ∧
    ∃ mem', stC5.memory.write 1 (leBytes 8 stC5.resources.errors.nextId) = some mem' ∧
      spawn_from_module stC5 0 sampleModule 0 1 1 0 1 77 =
        Except.ok (1, spawnErrState stC5 (ErrorValue.functionNotFound [0x67]) mem', []) :=
  (spawn_missing_function_is_recoverable stC5 0 sampleModule 0 1 1 0 1 77 [0x67] [] []
    (by decide) (by decide) (by decide) (by decide) (by decide) (by decide)).1 (by decide)

/-- Claim C6: create_config with max_fuel = 0 yields a config with unlimited
fuel, which Module::spawn turns into the maximal injection count u64::MAX
with the out-of-fuel trap and periodic yield still enabled; a non-zero
max_fuel f yields a config whose fuel limit is exactly f, installed as the
store's injection count with one yield per unit of compute. -/
theorem create_config_fuel_semantics
    (st : ProcState) (m f : Nat) (hf : f ≠ 0) :
    ((create_config st m 0).2.resources.configs.get (create_config st m 0).1 =
      some { maxMemory := m, maxFuel := none, allowedNamespaces := [], plugins := [] })
    ∧ configureFuel { maxMemory := m, maxFuel := none, allowedNamespaces := [], plugins := [] } =
      { outOfFuelTrap := true, injectionCount := u64MAX,
        fuelPerInjection := UNIT_OF_COMPUTE_IN_INSTRUCTIONS }
    ∧ ((create_config st m f).2.resources.configs.get (create_config st m f).1 =
      some { maxMemory := m, maxFuel := some f, allowedNamespaces := [], plugins := [] })
    ∧ configureFuel { maxMemory := m, maxFuel := some f, allowedNamespaces := [], plugins := [] } =
      { outOfFuelTrap := true, injectionCount := f,
        fuelPerInjection := UNIT_OF_COMPUTE_IN_INSTRUCTIONS } := by
  refine ⟨?_, rfl, ?_, rfl⟩
  · simp [create_config, ResourceTable.add, ResourceTable.get, List.find?]
  · simp [create_config, hf, ResourceTable.add, ResourceTable.get, List.find?]

/-- Witness for C6 at concrete inputs. -/
theorem create_config_fuel_semantics_witness :
    configureFuel { maxMemory := 4096, maxFuel := some 5, allowedNamespaces := [], plugins := [] } =
      { outOfFuelTrap := true, injectionCount := 5,
        fuelPerInjection := UNIT_OF_COMPUTE_IN_INSTRUCTIONS } :=
  (create_config_fuel_semantics stC5 4096 5 (by decide)).2.2.2

/-- Registry with two versions of the name "c" (byte 0x63) for the C7
witness. -/
def regC7 : List (List Byte × Version × Proc) :=
  [([0x63], ⟨1, 2, 3⟩, ⟨21⟩), ([0x63], ⟨1, 3, 0⟩, ⟨22⟩)]

/-- Module whose environment carries the C7 registry. -/
def moduleC7 : ModuleM :=
  { exports := [[0x66]]
    env := { config := { maxMemory := 0, maxFuel := none, allowedNamespaces := [], plugins := [] }
             registry := regC7 } }

/-- Caller state for the C7 witness: name "c" at 0, query byte "a" at 1, id
area at 2. -/
def stC7 : ProcState :=
  { id := 14, module := moduleC7, resources := emptyResources
    memory := ⟨[0x63, 0x61] ++ List.replicate 8 0⟩ }

/-- Claim C7: lookup returns 1 when the query string is not a valid semver
range, 2 when the range parses but no registered entry under the name
satisfies it, and otherwise 0, adding the matched process (the one with the
highest satisfying version) to the caller's process table and writing that
new resource id little-endian to id_u64_ptr; in the 1 and 2 cases nothing is
written and the state is unchanged. -/
theorem lookup_status_mapping
    (parse : List Byte → SemverQuery) (st : ProcState)
    (np nl qp ql ip : Nat) (nb qb : List Byte)
    (hn : st.memory.sliceWrap np nl = some nb) (hnv : validUTF8 nb = true)
    (hq : st.memory.sliceWrap qp ql = some qb) (hqv : validUTF8 qb = true)
    (hip : ip + 8 ≤ st.memory.bytes.length) :
    (parse qb = SemverQuery.invalid → lookup parse st np nl qp ql ip = Except.ok (1, st))
    ∧ (∀ sat, parse qb = SemverQuery.range sat →
        st.module.env.registry.filter (fun e => decide (e.1 = nb) && sat e.2.1) = [] →
        lookup parse st np nl qp ql ip = Except.ok (2, st))
    ∧ (∀ sat best, parse qb = SemverQuery.range sat →
        bestEntry (st.module.env.registry.filter (fun e => decide (e.1 = nb) && sat e.2.1)) =
          some best →
        best ∈ st.module.env.registry ∧ best.1 = nb ∧ sat best.2.1 = true ∧
        (∀ x ∈ st.module.env.registry, x.1 = nb → sat x.2.1 = true →
          Version.leb x.2.1 best.2.1 = true) ∧
        ∃ mem', st.memory.write ip (leBytes 8 st.resources.processes.nextId) = some mem' ∧
          lookup parse st np nl qp ql ip = Except.ok (0, spawnOkState st best.2.2 mem')) := by
  refine ⟨?_, ?_, ?_⟩
  · intro hinv
    simp [lookup, hn, hnv, hq, hqv, registryGet, hinv]
  · intro sat hr hfil
    simp [lookup, hn, hnv, hq, hqv, registryGet, hr, hfil, bestEntry]
  · intro sat best hr hbest
    have hmemF := bestEntry_mem _ _ hbest
    obtain ⟨hreg, hcond⟩ := List.mem_filter.mp hmemF
    rw [Bool.and_eq_true] at hcond
    obtain ⟨hname, hsat⟩ := hcond
    refine ⟨hreg, of_decide_eq_true hname, hsat, ?_, ?_⟩
    · intro x hx hxn hxs
      have hxf : x ∈ st.module.env.registry.filter
          (fun e => decide (e.1 = nb) && sat e.2.1) :=
        List.mem_filter.mpr ⟨hx, by rw [hxn]; simp [hxs]⟩
      exact bestEntry_max _ _ hbest x hxf
    · have hw := HostMemory.write_of_le st.memory ip
        (leBytes 8 st.resources.processes.nextId) (by rw [leBytes_length]; exact hip)
      refine ⟨writtenMem st.memory ip (leBytes 8 st.resources.processes.nextId), ?_, ?_⟩
      · simpa [writtenMem] using hw
      · simp [lookup, hn, hnv, hq, hqv, registryGet, hr, hbest,
          ResourceTable.add, hw, writtenMem, spawnOkState]

/-- Witness for C7 at concrete inputs: with a registry holding versions 1.2.3
and 1.3.0 of "c" and an all-accepting range, lookup picks 1.3.0, stores it
as resource 0 and returns 0. -/
theorem lookup_status_mapping_witness :
    (([0x63] : List Byte), (⟨1, 3, 0⟩ : Version), (⟨22⟩ : Proc)) ∈ stC7.module.env.registry ∧
    ([0x63] : List Byte) = [0x63] ∧ (fun _ : Version => true) (⟨1, 3, 0⟩ : Version) = true ∧
    (∀ x ∈ stC7.module.env.registry, x.1 = [0x63] → (fun _ : Version => true) x.2.1 = true →
      Version.leb x.2.1 (⟨1, 3, 0⟩ : Version) = true) ∧
    ∃ mem', stC7.memory.write 2 (leBytes 8 stC7.resources.processes.nextId) = some mem' ∧
      lookup (fun _ => SemverQuery.range (fun _ => true)) stC7 0 1 1 1 2 =
        Except.ok (0, spawnOkState stC7 ⟨22⟩ mem') :=
  (lookup_status_mapping (fun _ => SemverQuery.range (fun _ => true)) stC7 0 1 1 1 2
    [0x63] [0x61] (by decide) (by decide) (by decide) (by decide) (by decide)).2.2
    (fun _ => true) ([0x63], ⟨1, 3, 0⟩, ⟨22⟩) rfl (by decide)

/-- Claim C8: drop_config on the id returned by create_config succeeds, a
second drop_config with the same id traps, and every embedded host call
taking a resource id (drop_config, drop_environment, drop_module,
drop_process, clone_process, id) traps when the id is not present in the
caller's table. -/
theorem resource_ids_trap_when_absent
    (m f : Nat) (st st₂ : ProcState) (rid : Nat)
    (h1 : st₂.resources.configs.get rid = none)
    (h2 : st₂.resources.environments.get rid = none)
    (h3 : st₂.resources.modules.get rid = none)
    (h4 : st₂.resources.processes.get rid = none) :
    (∃ stA, drop_config (create_config st m f).2 (create_config st m f).1 = Except.ok stA ∧
      ∃ e, drop_config stA (create_config st m f).1 = Except.error e)
    ∧ (∃ e, drop_config st₂ rid = Except.error e)
    ∧ (∃ e, drop_environment st₂ rid = Except.error e)
    ∧ (∃ e, drop_module st₂ rid = Except.error e)
    ∧ (∃ e, drop_process st₂ rid = Except.error e)
    ∧ (∃ e, clone_process st₂ rid = Except.error e)
    ∧ (∀ ptr, ∃ e, id_host st₂ rid ptr = Except.error e) := by
  refine ⟨?_, ?_, ?_, ?_, ?_, ?_, ?_⟩
  · have hget : (create_config st m f).2.resources.configs.get (create_config st m f).1 =
        some { maxMemory := m, maxFuel := if f ≠ 0 then some f else none,
               allowedNamespaces := [], plugins := [] } := by
      simp [create_config, ResourceTable.add, ResourceTable.get, List.find?]
    have hrem := remove_of_get _ _ _ hget
    have h2get := remove_remove _ _ _ _ hrem
    have h2rem : (⟨(create_config st m f).2.resources.configs.nextId,
        (create_config st m f).2.resources.configs.entries.filter
          (fun p => decide (p.1 ≠ (create_config st m f).1))⟩ :
        ResourceTable EnvConfig).remove (create_config st m f).1 = none := by
      simp only [ResourceTable.remove]
      rw [h2get]
    refine ⟨{ (create_config st m f).2 with
      resources := { (create_config st m f).2.resources with
        configs := ⟨(create_config st m f).2.resources.configs.nextId,
          (create_config st m f).2.resources.configs.entries.filter
            (fun p => decide (p.1 ≠ (create_config st m f).1))⟩ } }, ?_, ?_⟩
    · simp [drop_config, hrem]
    · refine ⟨"lunatic::process::drop_config", ?_⟩
      simp only [drop_config]
      rw [h2rem]
  · have hrem : st₂.resources.configs.remove rid = none := by
      simp [ResourceTable.remove, h1]
    exact ⟨"lunatic::process::drop_config", by simp [drop_config, hrem]⟩
  · have hrem : st₂.resources.environments.remove rid = none := by
      simp [ResourceTable.remove, h2]
    exact ⟨"lunatic::process::drop_environment", by simp [drop_environment, hrem]⟩
  · have hrem : st₂.resources.modules.remove rid = none := by
      simp [ResourceTable.remove, h3]
    exact ⟨"lunatic::process::drop_module", by simp [drop_module, hrem]⟩
  · have hrem : st₂.resources.processes.remove rid = none := by
      simp [ResourceTable.remove, h4]
    exact ⟨"lunatic::process::drop_process", by simp [drop_process, hrem]⟩
  · exact ⟨"lunatic::process::clone_process", by simp [clone_process, h4]⟩
  · intro ptr
    exact ⟨"lunatic::process::id", by simp [id_host, h4]⟩

/-- Witness for C8 at concrete inputs: all tables empty, resource id 0. -/
theorem resource_ids_trap_when_absent_witness :
    (∃ stA, drop_config (create_config stC5 64 0).2 (create_config stC5 64 0).1 =
        Except.ok stA ∧
      ∃ e, drop_config stA (create_config stC5 64 0).1 = Except.error e)
    ∧ (∃ e, drop_config stC5 0 = Except.error e) :=
  ⟨(resource_ids_trap_when_absent 64 0 stC5 stC5 0 (by decide) (by decide) (by decide)
      (by decide)).1,
   (resource_ids_trap_when_absent 64 0 stC5 stC5 0 (by decide) (by decide) (by decide)
      (by decide)).2.1⟩

/-- Caller state for the C9 witness: 3 bytes of memory with an invalid UTF-8
byte in the middle. -/
def stC9 : ProcState :=
  { id := 15, module := sampleModule, resources := emptyResources
    memory := ⟨[0x61, 0xFF, 0x61]⟩ }

/-- Claim C9: guest-memory argument decoding fails only by trapping, for
every embedded host call taking a pointer and length: a range extending past
the end of the instance's linear memory traps (allow_namespace, the spawn
function-name and params regions, the lookup name and query strings, the
register and unregister name and version strings), and a byte range that is
not valid UTF-8 where a string is expected traps (allow_namespace, the spawn
function name, the lookup name and query, the register and unregister name
and version); in the shallow embedding every access is bounds-guarded, so no
out-of-bounds read occurs.  The three regions (pO,lO) out of bounds,
(pB,lB) in bounds but invalid UTF-8, and (pG,lG) in bounds and valid UTF-8
are placed in each argument slot in turn. -/
theorem guest_memory_decoding_traps
    (st : ProcState) (cfgId : Nat) (lk : Int) (m : ModuleM)
    (cid ip ipq envId procId : Nat)
    (parse : List Byte → SemverQuery) (parseV : List Byte → Option Version)
    (pO lO : Nat)
    (hOr : st.memory.read pO lO = none)
    (hOs : st.memory.sliceWrap pO lO = none)
    (pB lB : Nat) (bufB : List Byte)
    (hBr : st.memory.read pB lB = some bufB)
    (hBs : st.memory.sliceWrap pB lB = some bufB)
    (hbad : validUTF8 bufB = false)
    (pG lG : Nat) (bufG : List Byte)
    (hGs : st.memory.sliceWrap pG lG = some bufG)
    (hGv : validUTF8 bufG = true) :
    (∃ e, allow_namespace st cfgId pO lO = Except.error e)
    ∧ (∃ e, allow_namespace st cfgId pB lB = Except.error e)
    ∧ (∃ e, spawn_from_module st lk m pO lO pG lG ip cid = Except.error e)
    ∧ (∃ e, spawn_from_module st lk m pB lB pG lG ip cid = Except.error e)
    ∧ (∃ e, spawn_from_module st lk m pG lG pO lO ip cid = Except.error e)
    ∧ (∃ e, lookup parse st pO lO pG lG ipq = Except.error e)
    ∧ (∃ e, lookup parse st pB lB pG lG ipq = Except.error e)
    ∧ (∃ e, lookup parse st pG lG pO lO ipq = Except.error e)
    ∧ (∃ e, lookup parse st pG lG pB lB ipq = Except.error e)
    ∧ (∃ e, register_proc parseV st pO lO pG lG envId procId = Except.error e)
    ∧ (∃ e, register_proc parseV st pB lB pG lG envId procId = Except.error e)
    ∧ (∃ e, register_proc parseV st pG lG pO lO envId procId = Except.error e)
    ∧ (∃ e, register_proc parseV st pG lG pB lB envId procId = Except.error e)
    ∧ (∃ e, unregister parseV st pO lO pG lG envId = Except.error e)
    ∧ (∃ e, unregister parseV st pB lB pG lG envId = Except.error e)
    ∧ (∃ e, unregister parseV st pG lG pO lO envId = Except.error e)
    ∧ (∃ e, unregister parseV st pG lG pB lB envId = Except.error e) := by
  refine ⟨?_, ?_, ?_, ?_, ?_, ?_, ?_, ?_, ?_, ?_, ?_, ?_, ?_, ?_, ?_, ?_, ?_⟩
  · exact ⟨"lunatic::process::allow_namespace", by simp [allow_namespace, hOr]⟩
  · exact ⟨"lunatic::process::allow_namespace", by simp [allow_namespace, hBr, hbad]⟩
  · exact ⟨"lunatic::process::(inherit_)spawn", by simp [spawn_from_module, hOs]⟩
  · exact ⟨"lunatic::process::(inherit_)spawn", by simp [spawn_from_module, hBs, hbad]⟩
  · exact ⟨"lunatic::process::(inherit_)spawn", by simp [spawn_from_module, hGs, hGv, hOs]⟩
  · exact ⟨"lunatic::process::lookup", by simp [lookup, hOs]⟩
  · exact ⟨"lunatic::process::lookup", by simp [lookup, hBs, hbad]⟩
  · exact ⟨"lunatic::process::lookup", by simp [lookup, hGs, hGv, hOs]⟩
  · exact ⟨"lunatic::process::lookup", by simp [lookup, hGs, hGv, hBs, hbad]⟩
  · exact ⟨"lunatic::process::register", by simp [register_proc, hOs]⟩
  · exact ⟨"lunatic::process::register", by simp [register_proc, hBs, hbad]⟩
  · exact ⟨"lunatic::process::register", by simp [register_proc, hGs, hGv, hOs]⟩
  · exact ⟨"lunatic::process::register", by simp [register_proc, hGs, hGv, hBs, hbad]⟩
  · exact ⟨"lunatic::process::unregister", by simp [unregister, hOs]⟩
  · exact ⟨"lunatic::process::unregister", by simp [unregister, hBs, hbad]⟩
  · exact ⟨"lunatic::process::unregister", by simp [unregister, hGs, hGv, hOs]⟩
  · exact ⟨"lunatic::process::unregister", by simp [unregister, hGs, hGv, hBs, hbad]⟩

/-- Witness for C9 at concrete inputs on a 3-byte memory: an out-of-bounds
range (2,2), an invalid UTF-8 range (1,1) and a valid range (0,1), exercised
on allow_namespace, lookup's query slot, register's name slot and
unregister's version slot. -/
theorem guest_memory_decoding_traps_witness :
    (∃ e, allow_namespace stC9 0 2 2 = Except.error e)
    ∧ (∃ e, lookup (fun _ => SemverQuery.invalid) stC9 0 1 1 1 0 = Except.error e)
    ∧ (∃ e, register_proc (fun _ => none) stC9 2 2 0 1 0 0 = Except.error e)
    ∧ (∃ e, unregister (fun _ => none) stC9 0 1 1 1 0 = Except.error e) := by
  have h := guest_memory_decoding_traps stC9 0 0 sampleModule 9 0 0 0 0
    (fun _ => SemverQuery.invalid) (fun _ => none)
    2 2 (by decide) (by decide)
    1 1 [0xFF] (by decide) (by decide) (by decide)
    0 1 [0x61] (by decide) (by decide)
  exact ⟨h.1, h.2.2.2.2.2.2.2.2.1, h.2.2.2.2.2.2.2.2.2.1, h.2.2.2.2.2.2.2.2.2.2.2.2.2.2.2.2⟩

/-- A config used by the C10 witness. -/
def cfgC10 : EnvConfig :=
  { maxMemory := 1024, maxFuel := some 3, allowedNamespaces := [], plugins := [] }

/-- Caller state for the C10 witness: one config stored under id 0, 8 bytes
of memory. -/
def stC10 : ProcState :=
  { id := 16, module := sampleModule
    resources := { emptyResources with configs := ⟨1, [(0, cfgC10)]⟩ }
    memory := ⟨List.replicate 8 0⟩ }

/-- Claim C10: a successful create_environment does not remove the config
from the caller's config table: afterwards the same config id still resolves
(a subsequent drop_config succeeds), the created environment stores the
snapshot of the config taken at creation time, and later mutations through
allow_namespace never touch the environments table. -/
theorem create_environment_preserves_config
    (st : ProcState) (configId : Nat) (cfg : EnvConfig) (ip : Nat)
    (hc : st.resources.configs.get configId = some cfg)
    (hip : ip + 8 ≤ st.memory.bytes.length) :
    ∃ mem' st',
      st.memory.write ip (leBytes 8 st.resources.environments.nextId) = some mem' ∧
      create_environment st configId ip = Except.ok (0, st') ∧
      st'.resources.configs = st.resources.configs ∧
      st'.memory = mem' ∧
      (∃ stD, drop_config st' configId = Except.ok stD) ∧
      st'.resources.environments.get st.resources.environments.nextId =
        some { config := cfg, registry := [] } ∧
      (∀ p l st₂, allow_namespace st' configId p l = Except.ok st₂ →
        st₂.resources.environments = st'.resources.environments) := by
  have hw := HostMemory.write_of_le st.memory ip
    (leBytes 8 st.resources.environments.nextId) (by rw [leBytes_length]; exact hip)
  refine ⟨writtenMem st.memory ip (leBytes 8 st.resources.environments.nextId),
    { st with
      resources := { st.resources with
        environments := (st.resources.environments.add ⟨cfg, []⟩).2 },
      memory := writtenMem st.memory ip (leBytes 8 st.resources.environments.nextId) },
    ?_, ?_, rfl, rfl, ?_, ?_, ?_⟩
  · simpa [writtenMem] using hw
  · simp [create_environment, hc, ResourceTable.add, hw, writtenMem]
  · have hrem := remove_of_get _ _ _ hc
    refine ⟨{ st with
      resources := { st.resources with
        environments := (st.resources.environments.add ⟨cfg, []⟩).2,
        configs := ⟨st.resources.configs.nextId,
          st.resources.configs.entries.filter (fun p => decide (p.1 ≠ configId))⟩ },
      memory := writtenMem st.memory ip (leBytes 8 st.resources.environments.nextId) }, ?_⟩
    simp only [drop_config]
    rw [hrem]
  · exact get_add_self st.resources.environments ⟨cfg, []⟩
  · intro p l st₂ h
    exact allow_namespace_environments _ configId p l st₂ h

/-- Witness for C10 at concrete inputs. -/
theorem create_environment_preserves_config_witness :
    ∃ mem' st',
      stC10.memory.write 0 (leBytes 8 stC10.resources.environments.nextId) = some mem' ∧
      create_environment stC10 0 0 = Except.ok (0, st') ∧
      st'.resources.configs = stC10.resources.configs ∧
      st'.memory = mem' ∧
      (∃ stD, drop_config st' 0 = Except.ok stD) ∧
      st'.resources.environments.get stC10.resources.environments.nextId =
        some { config := cfgC10, registry := [] } ∧
      (∀ p l st₂, allow_namespace st' 0 p l = Except.ok st₂ →
        st₂.resources.environments = st'.resources.environments) :=
  create_environment_preserves_config stC10 0 cfgC10 0 (by decide) (by decide)

end Lunatic
